import Mathlib

/-!
Verification of the one-time login-code (OTP) primitive of the
timesheet-app repository, as implemented in
`src/app/lib/loginCodes.ts` and used by the HTTP route handlers
`src/app/api/auth/request-code/route.ts` and
`src/app/api/auth/verify-code/route.ts`.

The store `loginCodes : Map<string, LoginCodeEntry>` is embedded as a
function `String → Option LoginCodeEntry`.  The SHA-256 digest
(`crypto.createHash("sha256")`) is an external primitive and is embedded
as a parameter `hash : String → String` of every operation; `Date.now()`
and `Math.random()` are likewise embedded as explicit inputs `now` and
`rnd` (with `rnd = ⌊Math.random() * 900000⌋ < 900000`).
-/

namespace TimesheetApp

/-- The `LoginCodeEntry` record type of `loginCodes.ts`:
`{ codeHash: string; expiresAt: number; attemptsLeft: number }`. -/
structure LoginCodeEntry where
  codeHash : String
  expiresAt : Int
  attemptsLeft : Int
deriving DecidableEq, Repr

/-- The module-level `loginCodes` map, embedded as a function from keys to
optional entries. -/
def Store : Type := String → Option LoginCodeEntry

/-- The initial (empty) `Map`. -/
def Store.empty : Store := fun _ => none

/-- `loginCodes.set(k, v)`. -/
def Store.set (s : Store) (k : String) (v : LoginCodeEntry) : Store :=
  fun x => if x = k then some v else s x

/-- `loginCodes.delete(k)`. -/
def Store.del (s : Store) (k : String) : Store :=
  fun x => if x = k then none else s x

/-- JavaScript `String.prototype.trim` whitespace test, restricted to the
ASCII whitespace characters (the repository's identities are email
addresses). -/
def isJsSpace (c : Char) : Bool :=
  c = ' ' || c = '\t' || c = '\n' || c = '\r' || c = '\x0b' || c = '\x0c'

/-- Strip leading and trailing whitespace from a character list. -/
def trimChars (l : List Char) : List Char :=
  ((l.dropWhile isJsSpace).reverse.dropWhile isJsSpace).reverse

/-- JavaScript `s.trim()`. -/
def jsTrim (s : String) : String :=
  String.mk (trimChars s.data)

/-- JavaScript `String.prototype.toLowerCase` on one character (ASCII
range, which covers the login identities of this app). -/
def lowerChar (c : Char) : Char :=
  if 'A' ≤ c ∧ c ≤ 'Z' then Char.ofNat (c.toNat + 32) else c

/-- JavaScript `s.toLowerCase()`. -/
def jsToLower (s : String) : String :=
  String.mk (s.data.map lowerChar)

/-- `normalizeEmail(email) { return email.trim().toLowerCase(); }`. -/
def normalizeEmail (email : String) : String :=
  jsToLower (jsTrim email)

/-- Decimal digits of `n`, most significant first, as characters; fuel-indexed
exactly like the run of repeated division that JavaScript's
`Number.prototype.toString()` performs for a non-negative integer. -/
def decDigitsCore : Nat → Nat → List Char → List Char
  | 0, _, acc => acc
  | fuel + 1, n, acc =>
    let d := Char.ofNat (48 + n % 10)
    if n < 10 then d :: acc
    else decDigitsCore fuel (n / 10) (d :: acc)

/-- `n.toString()` for a non-negative integer `n` (decimal). -/
def natToDecString (n : Nat) : String :=
  String.mk (decDigitsCore (n + 1) n [])

/-- `createLoginCode(email)` from `loginCodes.ts`, with the external digest
function, the current time (`Date.now()`), and the random draw
(`⌊Math.random() * 900000⌋`, so that
`Math.floor(100000 + Math.random() * 900000) = 100000 + rnd`) passed in
explicitly.  Returns the plaintext code and the updated store. -/
def createLoginCode (hash : String → String) (now : Int) (rnd : Nat)
    (email : String) (s : Store) : String × Store :=
  let normalized := normalizeEmail email
  let code := natToDecString (100000 + rnd)
  let codeHash := hash code
  let expiresAt := now + 10 * 60 * 1000
  (code, s.set normalized { codeHash := codeHash, expiresAt := expiresAt, attemptsLeft := 5 })

/-- The result type of `verifyLoginCode`: `"ok" | "expired" | "invalid"`. -/
inductive VerifyResult where
  | ok
  | expired
  | invalid
deriving DecidableEq, Repr

/-- `verifyLoginCode(email, code)` from `loginCodes.ts`, with the digest
function and `Date.now()` passed in explicitly.  Returns the three-valued
result and the updated store. -/
def verifyLoginCode (hash : String → String) (now : Int)
    (email code : String) (s : Store) : VerifyResult × Store :=
  let normalized := normalizeEmail email
  match s normalized with
  | none => (.invalid, s)
  | some entry =>
    if now > entry.expiresAt then
      (.expired, s.del normalized)
    else if entry.attemptsLeft ≤ 0 then
      (.invalid, s.del normalized)
    else if entry.codeHash = hash code then
      (.ok, s.del normalized)
    else
      (.invalid, s.set normalized { entry with attemptsLeft := entry.attemptsLeft - 1 })

/-- One step of the code store: either a `createLoginCode` call (at an
arbitrary time, with an arbitrary random draw `rnd < 900000` coming from
`Math.floor(Math.random() * 900000)`) or a `verifyLoginCode` call with
arbitrary inputs. -/
inductive Step (hash : String → String) : Store → Store → Prop
  | issue (now : Int) (rnd : Nat) (email : String) (s : Store) :
      rnd < 900000 → Step hash s (createLoginCode hash now rnd email s).2
  | verify (now : Int) (email code : String) (s : Store) :
      Step hash s (verifyLoginCode hash now email code s).2

/-- The stores reachable from the empty map by any sequence of `issue` and
`verify` calls. -/
inductive Reachable (hash : String → String) : Store → Prop
  | empty : Reachable hash Store.empty
  | step {s s' : Store} : Reachable hash s → Step hash s s' → Reachable hash s'

/-! Embedding of the request-code HTTP handler
(`src/app/api/auth/request-code/route.ts`, `POST`).  The SMTP environment
variables, the parsed JSON body, the Prisma user lookup and the SMTP
transport outcome are external inputs of the handler and are passed as
parameters. -/

/-- The SMTP-related environment variables read at module load.  `none`
models an unset variable. -/
structure EnvConfig where
  smtpHost : Option String
  smtpUser : Option String
  smtpPass : Option String
  fromEmailEnv : Option String

/-- JavaScript truthiness of an optional string: `undefined` and `""` are
falsy. -/
def jsTruthy : Option String → Bool
  | none => false
  | some s => !(s == "")

/-- `FROM_EMAIL = process.env.FROM_EMAIL || SMTP_USER`. -/
def EnvConfig.fromEmail (c : EnvConfig) : Option String :=
  if jsTruthy c.fromEmailEnv then c.fromEmailEnv else c.smtpUser

/-- The fields of the Prisma `user` record that the handler reads. -/
structure User where
  name : String
  active : Bool
  canSubmitTimesheet : Bool

/-- The parsed JSON request body `{ email?: string }`. -/
structure RequestBody where
  email : Option String

/-- A `NextResponse.json` result: `json status message`, or the
`{ success: true }` response. -/
inductive ApiResult where
  | json (status : Nat) (message : String)
  | success
deriving DecidableEq, Repr

/-- The identifiers bound in the scope of the `POST` handler of
`request-code/route.ts` at the point of the `sendMail` call, mapped to
their string-valued contents where the email template needs them.  The
template literal at line 75 references `teacher.name`, but `teacher` is
bound nowhere in the file, so it is absent here. -/
def postScope (user : User) (code : String) : String → Option String :=
  fun x =>
    if x = "code" then some code
    else if x = "user" then some user.name
    else if x = "email" then some user.name
    else none

/-- Modelled JavaScript evaluation of the template literal
`Hi ${teacher.name}, ... ${code} ...` that builds the login email's text:
each interpolated identifier is looked up in the handler's scope, and an
unbound identifier throws a `ReferenceError`. -/
def buildLoginEmailText (user : User) (code : String) : Except String String :=
  match postScope user code "teacher" with
  | none => .error "ReferenceError: teacher is not defined"
  | some tn =>
    match postScope user code "code" with
    | none => .error "ReferenceError: code is not defined"
    | some c =>
      .ok ("Hi " ++ tn ++
        ",\n\nYour login code for the CES Worthing timesheet app is: " ++ c ++
        "\n\nThis code will expire in 10 minutes. If you didn’t request it, you can ignore this email.")

/-- The `POST` handler of `request-code/route.ts`.  `body? = none` models a
JSON parse failure; `findUser` models `prisma.user.findUnique`; `mailOk`
models whether `transporter.sendMail` itself would succeed once called.
Returns the HTTP result together with the (possibly updated) login-code
store. -/
def requestCodePOST (hash : String → String) (now : Int) (rnd : Nat)
    (env : EnvConfig) (mailOk : Bool) (findUser : String → Option User)
    (body? : Option RequestBody) (s : Store) : ApiResult × Store :=
  if !(jsTruthy env.smtpHost && jsTruthy env.smtpUser && jsTruthy env.smtpPass
        && jsTruthy env.fromEmail) then
    (.json 500 "Email configuration error.", s)
  else
    match body? with
    | none => (.json 400 "Invalid JSON payload.", s)
    | some body =>
      match body.email.map (fun e => jsToLower (jsTrim e)) with
      | none => (.json 400 "A valid email is required.", s)
      | some email =>
        if email == "" || !(email.data.contains '@') then
          (.json 400 "A valid email is required.", s)
        else
          match findUser email with
          | none =>
            (.json 403 "This email is not registered for the timesheet system. Please contact the administrator.", s)
          | some user =>
            if !user.active || !user.canSubmitTimesheet then
              (.json 403 "This email is not registered for the timesheet system. Please contact the administrator.", s)
            else
              let r := createLoginCode hash now rnd email s
              match buildLoginEmailText user r.1 with
              | .error _ => (.json 500 "Failed to send login code email.", r.2)
              | .ok _ =>
                if mailOk then (.success, r.2)
                else (.json 500 "Failed to send login code email.", r.2)

/-! Basic store lemmas. -/

theorem Store.get_set_self (s : Store) (k : String) (v : LoginCodeEntry) :
    (s.set k v) k = some v := by
  simp [Store.set]

theorem Store.get_set_ne (s : Store) (k k' : String) (v : LoginCodeEntry)
    (h : k' ≠ k) : (s.set k v) k' = s k' := by
  simp [Store.set, h]

theorem Store.get_del_self (s : Store) (k : String) : (s.del k) k = none := by
  simp [Store.del]

theorem Store.get_del_ne (s : Store) (k k' : String) (h : k' ≠ k) :
    (s.del k) k' = s k' := by
  simp [Store.del, h]

/-! Branch lemmas for `verifyLoginCode`, one per return point of the
source function. -/

/-- Zeta-reduced defining equation of `verifyLoginCode`. -/
theorem verifyLoginCode_eq (hash : String → String) (now : Int)
    (email code : String) (s : Store) :
    verifyLoginCode hash now email code s =
      match s (normalizeEmail email) with
      | none => (.invalid, s)
      | some entry =>
        if now > entry.expiresAt then
          (.expired, s.del (normalizeEmail email))
        else if entry.attemptsLeft ≤ 0 then
          (.invalid, s.del (normalizeEmail email))
        else if entry.codeHash = hash code then
          (.ok, s.del (normalizeEmail email))
        else
          (.invalid,
            s.set (normalizeEmail email)
              { entry with attemptsLeft := entry.attemptsLeft - 1 }) := rfl

theorem verify_no_entry (hash : String → String) (now : Int)
    (email code : String) (s : Store)
    (h : s (normalizeEmail email) = none) :
    verifyLoginCode hash now email code s = (.invalid, s) := by
  rw [verifyLoginCode_eq, h]

theorem verify_expired_branch (hash : String → String) (now : Int)
    (email code : String) (s : Store) (e : LoginCodeEntry)
    (he : s (normalizeEmail email) = some e) (hx : now > e.expiresAt) :
    verifyLoginCode hash now email code s =
      (.expired, s.del (normalizeEmail email)) := by
  rw [verifyLoginCode_eq, he]
  simp [hx]

theorem verify_exhausted_branch (hash : String → String) (now : Int)
    (email code : String) (s : Store) (e : LoginCodeEntry)
    (he : s (normalizeEmail email) = some e) (hx : ¬ now > e.expiresAt)
    (ha : e.attemptsLeft ≤ 0) :
    verifyLoginCode hash now email code s =
      (.invalid, s.del (normalizeEmail email)) := by
  rw [verifyLoginCode_eq, he]
  simp [hx, ha]

theorem verify_match_branch (hash : String → String) (now : Int)
    (email code : String) (s : Store) (e : LoginCodeEntry)
    (he : s (normalizeEmail email) = some e) (hx : ¬ now > e.expiresAt)
    (ha : ¬ e.attemptsLeft ≤ 0) (hm : e.codeHash = hash code) :
    verifyLoginCode hash now email code s =
      (.ok, s.del (normalizeEmail email)) := by
  rw [verifyLoginCode_eq, he]
  simp [hx, ha, hm]

theorem verify_mismatch_branch (hash : String → String) (now : Int)
    (email code : String) (s : Store) (e : LoginCodeEntry)
    (he : s (normalizeEmail email) = some e) (hx : ¬ now > e.expiresAt)
    (ha : ¬ e.attemptsLeft ≤ 0) (hm : e.codeHash ≠ hash code) :
    verifyLoginCode hash now email code s =
      (.invalid,
        s.set (normalizeEmail email) { e with attemptsLeft := e.attemptsLeft - 1 }) := by
  rw [verifyLoginCode_eq, he]
  simp [hx, ha, hm]

/-- The store returned by `createLoginCode`, at the normalized key. -/
theorem create_get_self (hash : String → String) (now : Int) (rnd : Nat)
    (email : String) (s : Store) :
    (createLoginCode hash now rnd email s).2 (normalizeEmail email) =
      some { codeHash := hash (natToDecString (100000 + rnd)),
             expiresAt := now + 10 * 60 * 1000,
             attemptsLeft := 5 } := by
  unfold createLoginCode
  exact Store.get_set_self ..

/-- The plaintext code returned by `createLoginCode`. -/
theorem create_fst (hash : String → String) (now : Int) (rnd : Nat)
    (email : String) (s : Store) :
    (createLoginCode hash now rnd email s).1 = natToDecString (100000 + rnd) := rfl

/-- The store returned by `createLoginCode`, away from the normalized key. -/
theorem create_get_ne (hash : String → String) (now : Int) (rnd : Nat)
    (email : String) (s : Store) (k : String) (h : k ≠ normalizeEmail email) :
    (createLoginCode hash now rnd email s).2 k = s k := by
  unfold createLoginCode
  exact Store.get_set_ne _ _ _ _ h

/-- C1: for every identity string, calling `createLoginCode` and then
immediately calling `verifyLoginCode` on the same identity with the
plaintext code that issuance returned yields `ok`, provided the current
time has not passed the entry's expiry. -/
theorem claim_C1 (hash : String → String) (now now' : Int) (rnd : Nat)
    (email : String) (s : Store)
    (hfresh : now' ≤ now + 10 * 60 * 1000) :
    (verifyLoginCode hash now' email (createLoginCode hash now rnd email s).1
      (createLoginCode hash now rnd email s).2).1 = .ok := by
  have he := create_get_self hash now rnd email s
  rw [create_fst,
    verify_match_branch hash now' email _ _ _ he
      (by show ¬ now' > now + 10 * 60 * 1000; omega)
      (by show ¬ (5 : Int) ≤ 0; norm_num) rfl]

/-- Witness for C1 at a concrete identity, time and random draw. -/
theorem claim_C1_witness :
    (0 : Int) ≤ 0 + 10 * 60 * 1000 ∧
    (verifyLoginCode (fun x => x) 0 "a@b.com"
      (createLoginCode (fun x => x) 0 0 "a@b.com" Store.empty).1
      (createLoginCode (fun x => x) 0 0 "a@b.com" Store.empty).2).1 = .ok :=
  ⟨by norm_num, claim_C1 (fun x => x) 0 0 0 "a@b.com" Store.empty (by norm_num)⟩

/-- C2: a successful verification is terminal and one-time: after a
`verifyLoginCode` call returns `ok`, the entry for the identity is
removed, and a second call with the same code returns `invalid`, at any
later (or earlier) time. -/
theorem claim_C2 (hash : String → String) (now now' : Int)
    (email code : String) (s : Store)
    (hok : (verifyLoginCode hash now email code s).1 = .ok) :
    (verifyLoginCode hash now email code s).2 (normalizeEmail email) = none ∧
    (verifyLoginCode hash now' email code
      (verifyLoginCode hash now email code s).2).1 = .invalid := by
  rcases hcase : s (normalizeEmail email) with _ | e
  · rw [verify_no_entry _ _ _ _ _ hcase] at hok
    simp at hok
  · by_cases hx : now > e.expiresAt
    · rw [verify_expired_branch _ _ _ _ _ _ hcase hx] at hok
      simp at hok
    · by_cases ha : e.attemptsLeft ≤ 0
      · rw [verify_exhausted_branch _ _ _ _ _ _ hcase hx ha] at hok
        simp at hok
      · by_cases hm : e.codeHash = hash code
        · rw [verify_match_branch _ _ _ _ _ _ hcase hx ha hm]
          refine ⟨Store.get_del_self .., ?_⟩
          rw [verify_no_entry _ _ _ _ _ (Store.get_del_self ..)]
        · rw [verify_mismatch_branch _ _ _ _ _ _ hcase hx ha hm] at hok
          simp at hok

/-- Witness for C2 at a concrete store holding a matching unexpired entry. -/
theorem claim_C2_witness :
    (verifyLoginCode (fun x => x) 0 "a@b.com" "111111"
        (Store.empty.set "a@b.com" ⟨"111111", 10, 5⟩)).2
      (normalizeEmail "a@b.com") = none ∧
    (verifyLoginCode (fun x => x) 1 "a@b.com" "111111"
      (verifyLoginCode (fun x => x) 0 "a@b.com" "111111"
        (Store.empty.set "a@b.com" ⟨"111111", 10, 5⟩)).2).1 = .invalid :=
  claim_C2 (fun x => x) 0 1 "a@b.com" "111111"
    (Store.empty.set "a@b.com" ⟨"111111", 10, 5⟩) (by decide)

/-- C4: expiry dominates everything else in `verifyLoginCode`: if the entry
exists and the current time is strictly past its `expiresAt`, the call
deletes the entry and returns `expired`, for every attempt count and
every candidate code (matching or not). -/
theorem claim_C4 (hash : String → String) (now : Int) (email code : String)
    (s : Store) (e : LoginCodeEntry)
    (he : s (normalizeEmail email) = some e) (hx : now > e.expiresAt) :
    (verifyLoginCode hash now email code s).1 = .expired ∧
    (verifyLoginCode hash now email code s).2 (normalizeEmail email) = none := by
  rw [verify_expired_branch hash now email code s e he hx]
  exact ⟨rfl, Store.get_del_self ..⟩

/-- Witness for C4: an entry with positive attempts and a matching code is
still reported `expired` once past its expiry instant. -/
theorem claim_C4_witness :
    (Store.empty.set "a@b.com" ⟨"111111", 10, 5⟩) (normalizeEmail "a@b.com") =
      some ⟨"111111", 10, 5⟩ ∧
    (verifyLoginCode (fun x => x) 11 "a@b.com" "111111"
      (Store.empty.set "a@b.com" ⟨"111111", 10, 5⟩)).1 = .expired ∧
    (verifyLoginCode (fun x => x) 11 "a@b.com" "111111"
      (Store.empty.set "a@b.com" ⟨"111111", 10, 5⟩)).2
      (normalizeEmail "a@b.com") = none :=
  ⟨by decide,
    claim_C4 (fun x => x) 11 "a@b.com" "111111"
      (Store.empty.set "a@b.com" ⟨"111111", 10, 5⟩) ⟨"111111", 10, 5⟩
      (by decide) (by norm_num)⟩

/-- C6: normalization is canonical and applied by every store operation:
issuing under one spelling and verifying under any spelling with the same
trim-and-lowercase normal form accepts the returned code (while
unexpired). -/
theorem claim_C6 (hash : String → String) (now now' : Int) (rnd : Nat)
    (e1 e2 : String) (s : Store)
    (hnorm : normalizeEmail e1 = normalizeEmail e2)
    (hfresh : now' ≤ now + 10 * 60 * 1000) :
    (verifyLoginCode hash now' e2 (createLoginCode hash now rnd e1 s).1
      (createLoginCode hash now rnd e1 s).2).1 = .ok := by
  have he : (createLoginCode hash now rnd e1 s).2 (normalizeEmail e2) =
      some { codeHash := hash (natToDecString (100000 + rnd)),
             expiresAt := now + 10 * 60 * 1000, attemptsLeft := 5 } := by
    rw [← hnorm]
    exact create_get_self ..
  rw [create_fst,
    verify_match_branch hash now' e2 _ _ _ he
      (by show ¬ now' > now + 10 * 60 * 1000; omega)
      (by show ¬ (5 : Int) ≤ 0; norm_num) rfl]

/-- Witness for C6 at the spec's concrete example spellings. -/
theorem claim_C6_witness :
    normalizeEmail "Foo@Bar.com" = normalizeEmail "  foo@bar.COM  " ∧
    (verifyLoginCode (fun x => x) 5 "  foo@bar.COM  "
      (createLoginCode (fun x => x) 0 482813 "Foo@Bar.com" Store.empty).1
      (createLoginCode (fun x => x) 0 482813 "Foo@Bar.com" Store.empty).2).1 = .ok :=
  ⟨by decide,
    claim_C6 (fun x => x) 0 5 482813 "Foo@Bar.com" "  foo@bar.COM  "
      Store.empty (by decide) (by norm_num)⟩

/-- C7: `verifyLoginCode` is total with exactly the three outcomes `ok`,
`expired`, `invalid`, and an identity with no stored entry is answered
`invalid` with the store unchanged — the same outward signal as a wrong
code. -/
theorem claim_C7 (hash : String → String) (now : Int) (email code : String)
    (s : Store) :
    ((verifyLoginCode hash now email code s).1 = .ok ∨
      (verifyLoginCode hash now email code s).1 = .expired ∨
      (verifyLoginCode hash now email code s).1 = .invalid) ∧
    (s (normalizeEmail email) = none →
      verifyLoginCode hash now email code s = (.invalid, s)) := by
  constructor
  · cases (verifyLoginCode hash now email code s).1 <;> simp
  · intro h
    exact verify_no_entry _ _ _ _ _ h

/-- Witness for C7 at a never-issued identity over the empty store. -/
theorem claim_C7_witness :
    Store.empty (normalizeEmail "never-issued@x.com") = none ∧
    verifyLoginCode (fun x => x) 0 "never-issued@x.com" "123456" Store.empty =
      (.invalid, Store.empty) :=
  ⟨rfl,
    (claim_C7 (fun x => x) 0 "never-issued@x.com" "123456" Store.empty).2 rfl⟩

/-- A mismatched attempt on a live entry answers `invalid` and stores the
entry with one attempt fewer. -/
theorem verify_wrong_code (hash : String → String) (t : Int)
    (email w : String) (s : Store) (e : LoginCodeEntry)
    (he : s (normalizeEmail email) = some e) (hx : ¬ t > e.expiresAt)
    (ha : 0 < e.attemptsLeft) (hm : e.codeHash ≠ hash w) :
    (verifyLoginCode hash t email w s).1 = .invalid ∧
    (verifyLoginCode hash t email w s).2 (normalizeEmail email) =
      some { e with attemptsLeft := e.attemptsLeft - 1 } := by
  rw [verify_mismatch_branch _ _ _ _ _ _ he hx (by omega) hm]
  exact ⟨rfl, Store.get_set_self ..⟩

/-- C3: the attempt budget bounds brute force: with a freshly issued
unexpired code, five consecutive wrong `verifyLoginCode` calls each answer
`invalid`, and a sixth call — even with the originally correct code and
still before expiry — answers `invalid` and deletes the entry. -/
theorem claim_C3 (hash : String → String) (now t1 t2 t3 t4 t5 t6 : Int)
    (rnd : Nat) (email w1 w2 w3 w4 w5 : String)
    (s0 s1 s2 s3 s4 s5 s6 : Store) (code : String)
    (hissue : createLoginCode hash now rnd email s0 = (code, s1))
    (hw1 : hash w1 ≠ hash code) (hw2 : hash w2 ≠ hash code)
    (hw3 : hash w3 ≠ hash code) (hw4 : hash w4 ≠ hash code)
    (hw5 : hash w5 ≠ hash code)
    (ht1 : t1 ≤ now + 10 * 60 * 1000) (ht2 : t2 ≤ now + 10 * 60 * 1000)
    (ht3 : t3 ≤ now + 10 * 60 * 1000) (ht4 : t4 ≤ now + 10 * 60 * 1000)
    (ht5 : t5 ≤ now + 10 * 60 * 1000) (ht6 : t6 ≤ now + 10 * 60 * 1000)
    (hs2 : s2 = (verifyLoginCode hash t1 email w1 s1).2)
    (hs3 : s3 = (verifyLoginCode hash t2 email w2 s2).2)
    (hs4 : s4 = (verifyLoginCode hash t3 email w3 s3).2)
    (hs5 : s5 = (verifyLoginCode hash t4 email w4 s4).2)
    (hs6 : s6 = (verifyLoginCode hash t5 email w5 s5).2) :
    (verifyLoginCode hash t1 email w1 s1).1 = .invalid ∧
    (verifyLoginCode hash t2 email w2 s2).1 = .invalid ∧
    (verifyLoginCode hash t3 email w3 s3).1 = .invalid ∧
    (verifyLoginCode hash t4 email w4 s4).1 = .invalid ∧
    (verifyLoginCode hash t5 email w5 s5).1 = .invalid ∧
    (verifyLoginCode hash t6 email code s6).1 = .invalid ∧
    (verifyLoginCode hash t6 email code s6).2 (normalizeEmail email) = none := by
  have hcode : natToDecString (100000 + rnd) = code := by
    have h := congrArg Prod.fst hissue
    rw [create_fst] at h
    exact h
  have hkey1 : s1 (normalizeEmail email) =
      some ⟨hash code, now + 10 * 60 * 1000, 5⟩ := by
    have h : (createLoginCode hash now rnd email s0).2 = s1 :=
      congrArg Prod.snd hissue
    rw [← h, create_get_self, hcode]
  have h1 := verify_wrong_code hash t1 email w1 s1 _ hkey1
    (by show ¬ t1 > now + 10 * 60 * 1000; omega)
    (by show (0 : Int) < 5; norm_num) (Ne.symm hw1)
  have hkey2 : s2 (normalizeEmail email) =
      some ⟨hash code, now + 10 * 60 * 1000, 4⟩ := by
    rw [hs2, h1.2]
    norm_num
  have h2 := verify_wrong_code hash t2 email w2 s2 _ hkey2
    (by show ¬ t2 > now + 10 * 60 * 1000; omega)
    (by show (0 : Int) < 4; norm_num) (Ne.symm hw2)
  have hkey3 : s3 (normalizeEmail email) =
      some ⟨hash code, now + 10 * 60 * 1000, 3⟩ := by
    rw [hs3, h2.2]
    norm_num
  have h3 := verify_wrong_code hash t3 email w3 s3 _ hkey3
    (by show ¬ t3 > now + 10 * 60 * 1000; omega)
    (by show (0 : Int) < 3; norm_num) (Ne.symm hw3)
  have hkey4 : s4 (normalizeEmail email) =
      some ⟨hash code, now + 10 * 60 * 1000, 2⟩ := by
    rw [hs4, h3.2]
    norm_num
  have h4 := verify_wrong_code hash t4 email w4 s4 _ hkey4
    (by show ¬ t4 > now + 10 * 60 * 1000; omega)
    (by show (0 : Int) < 2; norm_num) (Ne.symm hw4)
  have hkey5 : s5 (normalizeEmail email) =
      some ⟨hash code, now + 10 * 60 * 1000, 1⟩ := by
    rw [hs5, h4.2]
    norm_num
  have h5 := verify_wrong_code hash t5 email w5 s5 _ hkey5
    (by show ¬ t5 > now + 10 * 60 * 1000; omega)
    (by show (0 : Int) < 1; norm_num) (Ne.symm hw5)
  have hkey6 : s6 (normalizeEmail email) =
      some ⟨hash code, now + 10 * 60 * 1000, 0⟩ := by
    rw [hs6, h5.2]
    norm_num
  have h6 := verify_exhausted_branch hash t6 email code s6 _ hkey6
    (by show ¬ t6 > now + 10 * 60 * 1000; omega)
    (by show (0 : Int) ≤ 0; norm_num)
  refine ⟨h1.1, h2.1, h3.1, h4.1, h5.1, ?_, ?_⟩
  · rw [h6]
  · rw [h6]
    exact Store.get_del_self ..

/-- Witness for C3: a fresh issue followed by five wrong attempts, then the
correct code, all at time 0. -/
theorem claim_C3_witness :
    (verifyLoginCode (fun x => x) 0 "a@b.com" "100000"
      (verifyLoginCode (fun x => x) 0 "a@b.com" "000000"
        (verifyLoginCode (fun x => x) 0 "a@b.com" "000000"
          (verifyLoginCode (fun x => x) 0 "a@b.com" "000000"
            (verifyLoginCode (fun x => x) 0 "a@b.com" "000000"
              (verifyLoginCode (fun x => x) 0 "a@b.com" "000000"
                (createLoginCode (fun x => x) 0 0 "a@b.com" Store.empty).2).2).2).2).2).2).1
        = .invalid ∧
    (verifyLoginCode (fun x => x) 0 "a@b.com" "100000"
      (verifyLoginCode (fun x => x) 0 "a@b.com" "000000"
        (verifyLoginCode (fun x => x) 0 "a@b.com" "000000"
          (verifyLoginCode (fun x => x) 0 "a@b.com" "000000"
            (verifyLoginCode (fun x => x) 0 "a@b.com" "000000"
              (verifyLoginCode (fun x => x) 0 "a@b.com" "000000"
                (createLoginCode (fun x => x) 0 0 "a@b.com" Store.empty).2).2).2).2).2).2).2
      (normalizeEmail "a@b.com") = none :=
  (claim_C3 (fun x => x) 0 0 0 0 0 0 0 0
    "a@b.com" "000000" "000000" "000000" "000000" "000000"
    Store.empty _ _ _ _ _ _ "100000" rfl
    (by decide) (by decide) (by decide) (by decide) (by decide)
    (by norm_num) (by norm_num) (by norm_num) (by norm_num) (by norm_num)
    (by norm_num) rfl rfl rfl rfl rfl).2.2.2.2.2

/-- C5 as frozen is refuted by a repeated random draw: when the second
`createLoginCode` call happens to generate the same code as the first
(`Math.random()` may repeat), a `verifyLoginCode` call with the first
returned code is accepted. -/
theorem claim_C5_counterexample :
    (createLoginCode (fun x => x) 0 0 "a@b.com"
      (createLoginCode (fun x => x) 0 0 "a@b.com" Store.empty).2).1 =
      (createLoginCode (fun x => x) 0 0 "a@b.com" Store.empty).1 ∧
    (verifyLoginCode (fun x => x) 0 "a@b.com"
      (createLoginCode (fun x => x) 0 0 "a@b.com" Store.empty).1
      (createLoginCode (fun x => x) 0 0 "a@b.com"
        (createLoginCode (fun x => x) 0 0 "a@b.com" Store.empty).2).2).1 = .ok := by
  constructor
  · rfl
  · decide

/-- C5 (amended): at most one entry exists per normalized identity, and
re-issuance invalidates the prior code provided the second issuance's code
digest differs from the first's (the codes cannot collide): after two
`createLoginCode` calls the stored entry is the second call's, and
verifying the first code never yields `ok`. -/
theorem claim_C5 (hash : String → String) (now1 now2 now' : Int)
    (rnd1 rnd2 : Nat) (email : String) (s : Store)
    (hdiff : hash (natToDecString (100000 + rnd1)) ≠
      hash (natToDecString (100000 + rnd2))) :
    (createLoginCode hash now2 rnd2 email
      (createLoginCode hash now1 rnd1 email s).2).2 (normalizeEmail email) =
      some { codeHash := hash (natToDecString (100000 + rnd2)),
             expiresAt := now2 + 10 * 60 * 1000, attemptsLeft := 5 } ∧
    (verifyLoginCode hash now' email
      (createLoginCode hash now1 rnd1 email s).1
      (createLoginCode hash now2 rnd2 email
        (createLoginCode hash now1 rnd1 email s).2).2).1 ≠ .ok := by
  refine ⟨create_get_self .., ?_⟩
  have he := create_get_self hash now2 rnd2 email
    ((createLoginCode hash now1 rnd1 email s).2)
  rw [create_fst]
  by_cases hx : now' > now2 + 10 * 60 * 1000
  · rw [verify_expired_branch _ _ _ _ _ _ he hx]
    simp
  · rw [verify_mismatch_branch _ _ _ _ _ _ he hx
      (by show ¬ (5 : Int) ≤ 0; norm_num) (Ne.symm hdiff)]
    simp

/-- Witness for the amended C5: two issuances with distinct draws; the first
code is rejected afterwards. -/
theorem claim_C5_witness :
    (createLoginCode (fun x => x) 0 1 "a@b.com"
      (createLoginCode (fun x => x) 0 0 "a@b.com" Store.empty).2).2
      (normalizeEmail "a@b.com") =
      some { codeHash := "100001", expiresAt := 0 + 10 * 60 * 1000,
             attemptsLeft := 5 } ∧
    (verifyLoginCode (fun x => x) 0 "a@b.com"
      (createLoginCode (fun x => x) 0 0 "a@b.com" Store.empty).1
      (createLoginCode (fun x => x) 0 1 "a@b.com"
        (createLoginCode (fun x => x) 0 0 "a@b.com" Store.empty).2).2).1 ≠ .ok :=
  claim_C5 (fun x => x) 0 0 0 0 1 "a@b.com" Store.empty (by decide)

/-- With enough fuel, `decDigitsCore` computes the decimal digits of a
positive number (most significant first) in terms of `Nat.digits`. -/
theorem decDigitsCore_eq_digits :
    ∀ (fuel n : Nat) (acc : List Char), 0 < n → n < fuel →
      decDigitsCore fuel n acc =
        ((Nat.digits 10 n).map (fun d => Char.ofNat (48 + d))).reverse ++ acc := by
  intro fuel
  induction fuel with
  | zero =>
    intro n acc hn hf
    omega
  | succ fuel ih =>
    intro n acc hn hf
    by_cases h10 : n < 10
    · simp only [decDigitsCore, h10, if_true]
      rw [Nat.digits_of_lt 10 n (by omega) h10]
      simp [Nat.mod_eq_of_lt h10]
    · simp only [decDigitsCore, h10, if_false]
      rw [ih (n / 10) _ (Nat.div_pos (by omega) (by norm_num))
        (by have := Nat.div_lt_self hn (by norm_num : 1 < 10); omega)]
      rw [Nat.digits_def' (by norm_num : (1 : Nat) < 10) hn]
      simp

/-- A number between 100000 and 999999 prints as exactly six characters. -/
theorem natToDecString_length (m : Nat) (h1 : 100000 ≤ m) (h2 : m ≤ 999999) :
    (natToDecString m).length = 6 := by
  show (decDigitsCore (m + 1) m []).length = 6
  rw [decDigitsCore_eq_digits (m + 1) m [] (by omega) (by omega),
    List.append_nil, List.length_reverse, List.length_map,
    Nat.digits_len 10 m (by norm_num) (by omega)]
  have hlog : Nat.log 10 m = 5 :=
    Nat.log_eq_of_pow_le_of_lt_pow (by norm_num; omega) (by norm_num; omega)
  omega

/-- The decimal string of a positive number has no leading zero. -/
theorem natToDecString_head_ne_zero (m : Nat) (h1 : 0 < m) (c : Char)
    (hc : (natToDecString m).data.head? = some c) : c ≠ '0' := by
  have hrw : (natToDecString m).data =
      ((Nat.digits 10 m).map (fun d => Char.ofNat (48 + d))).reverse := by
    show decDigitsCore (m + 1) m [] = _
    rw [decDigitsCore_eq_digits (m + 1) m [] h1 (by omega), List.append_nil]
  have hne : Nat.digits 10 m ≠ [] := Nat.digits_ne_nil_iff_ne_zero.mpr (by omega)
  rw [hrw, List.head?_reverse, List.getLast?_map,
    List.getLast?_eq_getLast _ hne] at hc
  simp only [Option.map_some', Option.some_inj] at hc
  have hdz : (Nat.digits 10 m).getLast hne ≠ 0 :=
    Nat.getLast_digit_ne_zero 10 (by omega)
  have hdlt : (Nat.digits 10 m).getLast hne < 10 :=
    Nat.digits_lt_base (by norm_num) (List.getLast_mem hne)
  revert hc
  generalize (Nat.digits 10 m).getLast hne = d at hdz hdlt
  intro hc
  subst hc
  have h1d : 1 ≤ d := by omega
  interval_cases d <;> decide

/-- C8: `createLoginCode` cannot fail and its postconditions hold: the
returned code is the decimal string of `100000 + rnd`, whose numeric value
lies in 100000–999999, printed as exactly six characters with no leading
zero; the entry stored for the normalized identity holds the code's
digest, `expiresAt = now + 10 minutes` and `attemptsRemaining = 5`; no
other key of the store changes. -/
theorem claim_C8 (hash : String → String) (now : Int) (rnd : Nat)
    (email : String) (s : Store) (hrnd : rnd < 900000) :
    (createLoginCode hash now rnd email s).1 = natToDecString (100000 + rnd) ∧
    100000 ≤ 100000 + rnd ∧ 100000 + rnd ≤ 999999 ∧
    (createLoginCode hash now rnd email s).1.length = 6 ∧
    (∀ c, (createLoginCode hash now rnd email s).1.data.head? = some c →
      c ≠ '0') ∧
    (createLoginCode hash now rnd email s).2 (normalizeEmail email) =
      some { codeHash := hash ((createLoginCode hash now rnd email s).1),
             expiresAt := now + 10 * 60 * 1000, attemptsLeft := 5 } ∧
    (∀ k, k ≠ normalizeEmail email →
      (createLoginCode hash now rnd email s).2 k = s k) := by
  refine ⟨create_fst .., by omega, by omega, ?_, ?_, ?_, ?_⟩
  · rw [create_fst]
    exact natToDecString_length _ (by omega) (by omega)
  · intro c hc
    rw [create_fst] at hc
    exact natToDecString_head_ne_zero _ (by omega) c hc
  · rw [create_fst]
    exact create_get_self ..
  · intro k hk
    exact create_get_ne _ _ _ _ _ _ hk

/-- Witness for C8 at the largest random draw (code "999999"). -/
theorem claim_C8_witness :
    (createLoginCode (fun x => x) 0 899999 "a@b.com" Store.empty).1 =
      natToDecString (100000 + 899999) ∧
    100000 ≤ 100000 + 899999 ∧ 100000 + 899999 ≤ 999999 ∧
    (createLoginCode (fun x => x) 0 899999 "a@b.com" Store.empty).1.length = 6 ∧
    (∀ c,
      (createLoginCode (fun x => x) 0 899999 "a@b.com"
        Store.empty).1.data.head? = some c → c ≠ '0') ∧
    (createLoginCode (fun x => x) 0 899999 "a@b.com" Store.empty).2
        (normalizeEmail "a@b.com") =
      some { codeHash :=
               (fun x => x) ((createLoginCode (fun x => x) 0 899999 "a@b.com"
                 Store.empty).1),
             expiresAt := 0 + 10 * 60 * 1000, attemptsLeft := 5 } ∧
    (∀ k, k ≠ normalizeEmail "a@b.com" →
      (createLoginCode (fun x => x) 0 899999 "a@b.com" Store.empty).2 k =
        Store.empty k) :=
  claim_C8 (fun x => x) 0 899999 "a@b.com" Store.empty (by norm_num)

/-- Attempt counters of entries stored by a `verifyLoginCode` call, compared
with the previous store: an entry that changed at some key was decremented
by exactly one by a mismatched, unexpired, in-budget attempt on that very
identity. -/
theorem verify_change_characterization (hash : String → String) (now : Int)
    (email code : String) (s : Store) (k : String) (e e' : LoginCodeEntry)
    (he : s k = some e)
    (he' : (verifyLoginCode hash now email code s).2 k = some e')
    (hne : e' ≠ e) :
    k = normalizeEmail email ∧ ¬ now > e.expiresAt ∧ 0 < e.attemptsLeft ∧
      e.codeHash ≠ hash code ∧
      e' = { e with attemptsLeft := e.attemptsLeft - 1 } := by
  rcases hcase : s (normalizeEmail email) with _ | e0
  · rw [verify_no_entry _ _ _ _ _ hcase] at he'
    have h2 : s k = some e' := he'
    rw [he] at h2
    exact absurd (Option.some_inj.mp h2).symm hne
  · by_cases hx : now > e0.expiresAt
    · rw [verify_expired_branch _ _ _ _ _ _ hcase hx] at he'
      have h2 : s.del (normalizeEmail email) k = some e' := he'
      by_cases hk : k = normalizeEmail email
      · rw [hk, Store.get_del_self] at h2
        cases h2
      · rw [Store.get_del_ne _ _ _ hk, he] at h2
        exact absurd (Option.some_inj.mp h2).symm hne
    · by_cases ha : e0.attemptsLeft ≤ 0
      · rw [verify_exhausted_branch _ _ _ _ _ _ hcase hx ha] at he'
        have h2 : s.del (normalizeEmail email) k = some e' := he'
        by_cases hk : k = normalizeEmail email
        · rw [hk, Store.get_del_self] at h2
          cases h2
        · rw [Store.get_del_ne _ _ _ hk, he] at h2
          exact absurd (Option.some_inj.mp h2).symm hne
      · by_cases hm : e0.codeHash = hash code
        · rw [verify_match_branch _ _ _ _ _ _ hcase hx ha hm] at he'
          have h2 : s.del (normalizeEmail email) k = some e' := he'
          by_cases hk : k = normalizeEmail email
          · rw [hk, Store.get_del_self] at h2
            cases h2
          · rw [Store.get_del_ne _ _ _ hk, he] at h2
            exact absurd (Option.some_inj.mp h2).symm hne
        · rw [verify_mismatch_branch _ _ _ _ _ _ hcase hx ha hm] at he'
          have h2 : (s.set (normalizeEmail email)
              { e0 with attemptsLeft := e0.attemptsLeft - 1 }) k = some e' := he'
          by_cases hk : k = normalizeEmail email
          · subst hk
            rw [Store.get_set_self] at h2
            rw [hcase] at he
            cases Option.some_inj.mp he
            exact ⟨rfl, hx, by omega, hm, (Option.some_inj.mp h2).symm⟩
          · rw [Store.get_set_ne _ _ _ _ hk, he] at h2
            exact absurd (Option.some_inj.mp h2).symm hne

/-- Entries stored by a `createLoginCode` call, compared with the previous
store: the only entry it can change is the one of the normalized identity,
which it replaces by a fresh entry with a budget of 5. -/
theorem create_change_characterization (hash : String → String) (now : Int)
    (rnd : Nat) (email : String) (s : Store) (k : String)
    (e e' : LoginCodeEntry) (he : s k = some e)
    (he' : (createLoginCode hash now rnd email s).2 k = some e')
    (hne : e' ≠ e) :
    k = normalizeEmail email ∧ e'.attemptsLeft = 5 := by
  by_cases hk : k = normalizeEmail email
  · subst hk
    rw [create_get_self] at he'
    exact ⟨rfl, by rw [← Option.some_inj.mp he']⟩
  · rw [create_get_ne _ _ _ _ _ _ hk, he] at he'
    exact absurd (Option.some_inj.mp he').symm hne

/-- A single `issue`/`verify` step preserves the attempt-budget bounds. -/
theorem step_preserves_attempts (hash : String → String) {s s' : Store}
    (hstep : Step hash s s')
    (ih : ∀ k e, s k = some e → 0 ≤ e.attemptsLeft ∧ e.attemptsLeft ≤ 5)
    (k : String) (e : LoginCodeEntry) (he : s' k = some e) :
    0 ≤ e.attemptsLeft ∧ e.attemptsLeft ≤ 5 := by
  cases hstep with
  | issue now rnd email hrnd =>
    by_cases hk : k = normalizeEmail email
    · subst hk
      rw [create_get_self] at he
      cases Option.some_inj.mp he
      constructor <;> norm_num
    · rw [create_get_ne _ _ _ _ _ _ hk] at he
      exact ih k e he
  | verify now email code =>
    rcases hcase : s (normalizeEmail email) with _ | e0
    · rw [verify_no_entry _ _ _ _ _ hcase] at he
      exact ih k e he
    · by_cases hx : now > e0.expiresAt
      · rw [verify_expired_branch _ _ _ _ _ _ hcase hx] at he
        have h2 : s.del (normalizeEmail email) k = some e := he
        by_cases hk : k = normalizeEmail email
        · rw [hk, Store.get_del_self] at h2
          cases h2
        · rw [Store.get_del_ne _ _ _ hk] at h2
          exact ih k e h2
      · by_cases ha : e0.attemptsLeft ≤ 0
        · rw [verify_exhausted_branch _ _ _ _ _ _ hcase hx ha] at he
          have h2 : s.del (normalizeEmail email) k = some e := he
          by_cases hk : k = normalizeEmail email
          · rw [hk, Store.get_del_self] at h2
            cases h2
          · rw [Store.get_del_ne _ _ _ hk] at h2
            exact ih k e h2
        · by_cases hm : e0.codeHash = hash code
          · rw [verify_match_branch _ _ _ _ _ _ hcase hx ha hm] at he
            have h2 : s.del (normalizeEmail email) k = some e := he
            by_cases hk : k = normalizeEmail email
            · rw [hk, Store.get_del_self] at h2
              cases h2
            · rw [Store.get_del_ne _ _ _ hk] at h2
              exact ih k e h2
          · rw [verify_mismatch_branch _ _ _ _ _ _ hcase hx ha hm] at he
            have h2 : (s.set (normalizeEmail email)
                { e0 with attemptsLeft := e0.attemptsLeft - 1 }) k = some e := he
            by_cases hk : k = normalizeEmail email
            · subst hk
              rw [Store.get_set_self] at h2
              have h0 := ih _ _ hcase
              cases Option.some_inj.mp h2
              constructor <;> simp <;> omega
            · rw [Store.get_set_ne _ _ _ _ hk] at h2
              exact ih k e h2

/-- Every store reachable by `issue`/`verify` sequences keeps every entry's
attempt budget between 0 and 5. -/
theorem reachable_attempts_invariant (hash : String → String) (s : Store)
    (hs : Reachable hash s) (k : String) (e : LoginCodeEntry)
    (he : s k = some e) : 0 ≤ e.attemptsLeft ∧ e.attemptsLeft ≤ 5 := by
  induction hs generalizing k e with
  | empty => cases he
  | step _ hstep ih => exact step_preserves_attempts hash hstep ih k e he

/-- C9: in every state reachable by any sequence of issue and verify calls,
every stored entry's attempt budget is non-negative (and at most 5), and a
stored entry's budget changes only through a `verifyLoginCode` call on
that identity whose code mismatches the stored digest while the entry is
unexpired with a positive budget — in which case it decreases by exactly
one — while `createLoginCode` only ever replaces an entry by a fresh one
with the full budget of 5. -/
theorem claim_C9 (hash : String → String) :
    (∀ s, Reachable hash s → ∀ k e, s k = some e →
      0 ≤ e.attemptsLeft ∧ e.attemptsLeft ≤ 5) ∧
    (∀ now email code s k e e', s k = some e →
      (verifyLoginCode hash now email code s).2 k = some e' → e' ≠ e →
      k = normalizeEmail email ∧ ¬ now > e.expiresAt ∧ 0 < e.attemptsLeft ∧
        e.codeHash ≠ hash code ∧
        e' = { e with attemptsLeft := e.attemptsLeft - 1 }) ∧
    (∀ now rnd email s k e e', s k = some e →
      (createLoginCode hash now rnd email s).2 k = some e' → e' ≠ e →
      k = normalizeEmail email ∧ e'.attemptsLeft = 5) := by
  refine ⟨?_, ?_, ?_⟩
  · intro s hs k e he
    exact reachable_attempts_invariant hash s hs k e he
  · intro now email code s k e e' he he' hne
    exact verify_change_characterization hash now email code s k e e' he he' hne
  · intro now rnd email s k e e' he he' hne
    exact create_change_characterization hash now rnd email s k e e' he he' hne

/-- Witness for C9: the store after one issuance is reachable, and its entry
has a budget within bounds. -/
theorem claim_C9_witness :
    0 ≤ (LoginCodeEntry.mk "100000" 600000 5).attemptsLeft ∧
    (LoginCodeEntry.mk "100000" 600000 5).attemptsLeft ≤ 5 :=
  (claim_C9 (fun x => x)).1
    (createLoginCode (fun x => x) 0 0 "a@b.com" Store.empty).2
    (Reachable.step Reachable.empty
      (Step.issue 0 0 "a@b.com" Store.empty (by norm_num)))
    (normalizeEmail "a@b.com") (LoginCodeEntry.mk "100000" 600000 5)
    (by decide)

/-- Evaluating the login-email template literal always throws: its free
identifier `teacher` is bound nowhere in the handler's scope. -/
theorem buildLoginEmailText_fails (user : User) (code : String) :
    buildLoginEmailText user code =
      .error "ReferenceError: teacher is not defined" := rfl

/-- C10: with complete SMTP configuration, a well-formed body and an
authorized (active, timesheet-eligible) user, the request-code handler
always returns the 500 "Failed to send login code email." response —
building the email body references the unbound identifier `teacher`, so
the send step always throws — and yet the login-code entry created by
`createLoginCode` beforehand remains stored for the identity. -/
theorem claim_C10 (hash : String → String) (now : Int) (rnd : Nat)
    (env : EnvConfig) (mailOk : Bool) (findUser : String → Option User)
    (rawEmail : String) (user : User) (s : Store)
    (hhost : jsTruthy env.smtpHost = true)
    (huser0 : jsTruthy env.smtpUser = true)
    (hpass : jsTruthy env.smtpPass = true)
    (hfrom : jsTruthy env.fromEmail = true)
    (hne : (jsToLower (jsTrim rawEmail) == "") = false)
    (hat : ((jsToLower (jsTrim rawEmail)).data.contains '@') = true)
    (hfind : findUser (jsToLower (jsTrim rawEmail)) = some user)
    (hactive : user.active = true)
    (hsubmit : user.canSubmitTimesheet = true) :
    requestCodePOST hash now rnd env mailOk findUser
        (some ⟨some rawEmail⟩) s =
      (.json 500 "Failed to send login code email.",
        (createLoginCode hash now rnd (jsToLower (jsTrim rawEmail)) s).2) ∧
    (createLoginCode hash now rnd (jsToLower (jsTrim rawEmail)) s).2
        (normalizeEmail (jsToLower (jsTrim rawEmail))) =
      some { codeHash := hash (natToDecString (100000 + rnd)),
             expiresAt := now + 10 * 60 * 1000, attemptsLeft := 5 } := by
  constructor
  · simp only [requestCodePOST, hhost, huser0, hpass, hfrom, Bool.and_self,
      Bool.not_true, Option.map_some', hne, hat, hfind, hactive, hsubmit,
      buildLoginEmailText_fails, Bool.or_self, Bool.false_or, Bool.or_false,
      if_false, Bool.and_true, Bool.true_and]
    simp
  · exact create_get_self ..

/-- Witness for C10 with a fully concrete environment, user and request. -/
theorem claim_C10_witness :
    requestCodePOST (fun x => x) 0 0
        (EnvConfig.mk (some "smtp.example.com") (some "mailer")
          (some "secret") (some "from@example.com"))
        true (fun _ => some (User.mk "Terry" true true))
        (some (RequestBody.mk (some "A@b.com"))) Store.empty =
      (.json 500 "Failed to send login code email.",
        (createLoginCode (fun x => x) 0 0
          (jsToLower (jsTrim "A@b.com")) Store.empty).2) ∧
    (createLoginCode (fun x => x) 0 0 (jsToLower (jsTrim "A@b.com"))
        Store.empty).2 (normalizeEmail (jsToLower (jsTrim "A@b.com"))) =
      some { codeHash := (fun x : String => x) (natToDecString (100000 + 0)),
             expiresAt := 0 + 10 * 60 * 1000, attemptsLeft := 5 } :=
  claim_C10 (fun x => x) 0 0
    (EnvConfig.mk (some "smtp.example.com") (some "mailer") (some "secret")
      (some "from@example.com"))
    true (fun _ => some (User.mk "Terry" true true)) "A@b.com"
    (User.mk "Terry" true true) Store.empty
    (by decide) (by decide) (by decide) (by decide) (by decide) (by decide)
    rfl rfl rfl

end TimesheetApp
